import Mathlib

/-!
Verification of the Fund-Link Granger-network construction engine
(`apps/worker/scripts/run_granger.py` together with the persisted data model
of `apps/api/db/models.py`).

Modelling conventions:
* Dates are integers (ordinal day numbers); `date.fromisoformat` and pandas
  timestamps are out of scope, only the ordering of dates matters.
* SQL `Numeric(18, 6)` decimals and Python floats are modelled as rationals.
  `round(x, 6)` / `Decimal` quantisation is modelled as exact decimal
  round-half-even (Python's rounding mode) on rationals.
* Nullable SQL columns are `Option` fields; a SQL comparison with NULL is
  false, which the embedding mirrors by matching on `Option`.
* The database is a record of lists of rows.  A run works on one session and
  commits once per terminal branch; the committed state is what the model
  returns.  In particular the job row, although flushed while `running`, is
  only ever visible at a commit, so the model records the committed job with
  its terminal status.
* The statsmodels call `grangercausalitytests` is an external collaborator
  and is modelled as an oracle: given the `dst` column, the `src` column and
  `maxlag`, it either fails (models a raised exception) or returns the
  `ssr_ftest` p-value for every lag `1..maxlag`.
* `metadata_json`, `payload`, `result` and the timestamp columns are opaque
  provenance blobs which no claim mentions; they are omitted from the row
  models.
-/

namespace FundLink

/-- Dates as ordinal day numbers. -/
abbrev DateT := Int

/-- Row of the `symbols` table (the columns the engine reads). -/
structure Symbol where
  id : Nat
  ticker : String
deriving Repr, DecidableEq

/-- Row of the `features_daily` table.  `feature_values` is `none` for a
non-dict JSON payload (the `isinstance(feature_values, dict)` guard); inside
the dict, a value is `none` when `_to_float` rejects it (missing, non-numeric,
NaN or infinite). -/
structure FeatureRow where
  symbol_id : Nat
  date : DateT
  feature_set_version : String
  feature_values : Option (List (String × Option ℚ))
deriving Repr, DecidableEq

/-- Row of the `jobs` table (the columns the engine writes). -/
structure Job where
  id : Nat
  job_type : String
  status : String
  error_message : Option String
deriving Repr, DecidableEq

/-- Row of the `network_snapshots` table.  `end_date` and `window_size` are
nullable columns in the schema. -/
structure Snapshot where
  id : Nat
  as_of_date : DateT
  end_date : Option DateT
  window_size : Option Int
  job_id : Option Nat
  window_start : Option DateT
  window_end : Option DateT
  method : String
  node_count : Nat
  edge_count : Nat
deriving Repr, DecidableEq

/-- Row of the `network_edges` table.  `run_granger` always populates
`p_value` and `lag`, so they are plain fields here. -/
structure Edge where
  snapshot_id : Nat
  source_symbol_id : Nat
  target_symbol_id : Nat
  weight : ℚ
  p_value : ℚ
  lag : Int
deriving Repr, DecidableEq

/-- The persisted database state: one list of rows per table, plus the
autoincrement counters for the two tables the engine inserts into. -/
structure DB where
  symbols : List Symbol
  features : List FeatureRow
  jobs : List Job
  snapshots : List Snapshot
  edges : List Edge
  nextJobId : Nat
  nextSnapshotId : Nat
deriving Repr, DecidableEq

/-- A database with no rows. -/
def emptyDB : DB :=
  { symbols := [], features := [], jobs := [], snapshots := [], edges := [],
    nextJobId := 1, nextSnapshotId := 1 }

/-! ### Decimal rounding (`round(x, 6)` and `Numeric(18, 6)` quantisation) -/

/-- Round-half-even ("banker's rounding") to the nearest integer, the rounding
used by Python's `round` and by `Decimal`. -/
def roundHalfEven (x : ℚ) : ℤ :=
  if x - ⌊x⌋ < 1 / 2 then ⌊x⌋
  else if 1 / 2 < x - ⌊x⌋ then ⌊x⌋ + 1
  else if ⌊x⌋ % 2 = 0 then ⌊x⌋ else ⌊x⌋ + 1

/-- Decimal rounding to 6 places, the model of `round(p, 6)` /
`Decimal(str(round(p, 6)))`. -/
def round6 (x : ℚ) : ℚ := (roundHalfEven (x * 1000000) : ℚ) / 1000000

theorem roundHalfEven_intCast (n : ℤ) : roundHalfEven (n : ℚ) = n := by
  simp [roundHalfEven]

theorem floor_le_roundHalfEven (x : ℚ) : ⌊x⌋ ≤ roundHalfEven x := by
  unfold roundHalfEven
  split
  · exact le_refl _
  · split
    · exact le_of_lt (lt_add_one _)
    · split
      · exact le_refl _
      · exact le_of_lt (lt_add_one _)

theorem roundHalfEven_le_ceil (x : ℚ) : roundHalfEven x ≤ ⌈x⌉ := by
  unfold roundHalfEven
  split
  · exact Int.floor_le_ceil x
  · rename_i h
    push_neg at h
    have hne : (⌊x⌋ : ℚ) < x := by
      have := Int.floor_le x
      linarith
    have h1 : ⌊x⌋ + 1 ≤ ⌈x⌉ := Int.lt_ceil.mpr hne
    split
    · exact h1
    · split
      · omega
      · exact h1

theorem round6_nonneg {x : ℚ} (hx : 0 ≤ x) : 0 ≤ round6 x := by
  unfold round6
  have h1 : (0 : ℤ) ≤ ⌊x * 1000000⌋ := by
    apply Int.floor_nonneg.mpr
    positivity
  have h2 : (0 : ℤ) ≤ roundHalfEven (x * 1000000) :=
    le_trans h1 (floor_le_roundHalfEven _)
  have : (0 : ℚ) ≤ (roundHalfEven (x * 1000000) : ℚ) := by exact_mod_cast h2
  positivity

theorem round6_le_one {x : ℚ} (hx : x ≤ 1) : round6 x ≤ 1 := by
  unfold round6
  have h1 : ⌈x * 1000000⌉ ≤ (1000000 : ℤ) := by
    apply Int.ceil_le.mpr
    push_cast
    nlinarith
  have h2 : roundHalfEven (x * 1000000) ≤ (1000000 : ℤ) :=
    le_trans (roundHalfEven_le_ceil _) h1
  rw [div_le_one (by norm_num : (0 : ℚ) < 1000000)]
  exact_mod_cast h2

/-- `round6` is the identity on values that already have six decimal places. -/
theorem round6_int_div (n : ℤ) : round6 ((n : ℚ) / 1000000) = (n : ℚ) / 1000000 := by
  unfold round6
  have h : ((n : ℚ) / 1000000) * 1000000 = (n : ℚ) := by
    field_simp
  rw [h, roundHalfEven_intCast]

/-- The value `round6 x` has six decimal places, so rounding it again (or
rounding its complement `1 - round6 x`) is the identity. -/
theorem round6_one_sub_round6 (x : ℚ) :
    round6 (1 - round6 x) = 1 - round6 x := by
  have h : 1 - round6 x = ((1000000 - roundHalfEven (x * 1000000) : ℤ) : ℚ) / 1000000 := by
    unfold round6
    push_cast
    ring
  rw [h, round6_int_div]

/-! ### Symbol resolution (`_resolve_symbols`) -/

/-- The static fallback table `FALLBACK_TICKERS`. -/
def FALLBACK_TICKERS (t : String) : List String :=
  if t = "^TOPX" then ["1306.T"] else []

/-- The query `select(Symbol).where(Symbol.ticker == candidate)` followed by
`.scalar` (first matching row or `None`). -/
def findSymbol (symbols : List Symbol) (t : String) : Option Symbol :=
  symbols.find? fun s => s.ticker == t

/-- One resolved entry of `_resolve_symbols`' output. -/
structure ResolvedSymbol where
  requested_ticker : String
  used_ticker : String
  symbol : Symbol
deriving Repr, DecidableEq

/-- The inner candidate loop of `_resolve_symbols`: walk the candidate list,
`continue` when the symbol query returns `None`, and `break` with the first
hit. -/
def pickCandidate (symbols : List Symbol) (ticker : String) :
    List String → Option ResolvedSymbol
  | [] => none
  | c :: rest =>
    match findSymbol symbols c with
    | none => pickCandidate symbols ticker rest
    | some s => some ⟨ticker, c, s⟩

/-- `_resolve_symbols`: for each requested ticker try the ticker itself and
then its fallbacks; tickers for which every candidate query misses are
skipped (printed and dropped). -/
def resolve_symbols (symbols : List Symbol) (tickers : List String) :
    List ResolvedSymbol :=
  tickers.filterMap fun t => pickCandidate symbols t (t :: FALLBACK_TICKERS t)

/-- Modelled from the claim's wording, for comparison with the source
resolver: a candidate "wins" only when it both exists as a symbol and has an
available feature series. -/
def hasFeatureSeries (features : List FeatureRow) (s : Symbol) : Bool :=
  features.any fun f => f.symbol_id == s.id

/-- Modelled from the claim's wording: the resolver the claim describes,
which skips a candidate whose symbol has no feature series at all. -/
def pickCandidateClaimed (symbols : List Symbol) (features : List FeatureRow)
    (ticker : String) : List String → Option ResolvedSymbol
  | [] => none
  | c :: rest =>
    match findSymbol symbols c with
    | none => pickCandidateClaimed symbols features ticker rest
    | some s =>
      if hasFeatureSeries features s then some ⟨ticker, c, s⟩
      else pickCandidateClaimed symbols features ticker rest

/-! ### The pairwise causality test (`_evaluate_pair`) -/

/-- The external `grangercausalitytests` call: given the `dst` column, the
`src` column and `maxlag`, either fail (a raised exception, caught by the
caller) or return the `ssr_ftest` p-value for each lag; only the values at
lags `1..maxlag` are meaningful. -/
abbrev GrangerTest := List ℚ → List ℚ → Nat → Option (Nat → ℚ)

/-- Contract of the external statistics library: every p-value it reports is
nonnegative (`_evaluate_pair`'s own accumulator start guarantees the upper
bound `1`). -/
def GrangerNonneg (gt : GrangerTest) : Prop :=
  ∀ d s m f, gt d s m = some f → ∀ l, 0 ≤ f l

/-- `_evaluate_pair`: length check, `effective_max_lag = min(max_lag,
len - 2)` with the `< 1` skip, the NaN check on the concatenated frame, the
(fallible) statsmodels call, and the minimum-p-value scan over the result
dict with `best_p = 1.0`, `best_lag = 0` as the start. -/
def evaluate_pair (gt : GrangerTest) (src_values dst_values : List (Option ℚ))
    (max_lag : Int) : Option (ℚ × Nat) :=
  if src_values.length ≠ dst_values.length then none
  else
    let effective_max_lag : Int := min max_lag ((src_values.length : Int) - 2)
    if effective_max_lag < 1 then none
    else if (dst_values ++ src_values).any fun v => v.isNone then none
    else
      match gt dst_values.reduceOption src_values.reduceOption
          effective_max_lag.toNat with
      | none => none
      | some pvals =>
        let best := (List.range' 1 effective_max_lag.toNat).foldl
          (fun acc lag => if pvals lag < acc.1 then (pvals lag, lag) else acc)
          ((1 : ℚ), (0 : Nat))
        if best.2 = 0 then none else some best

/-! ### Per-window candidate edges (the pair loops of `run_granger`) -/

/-- A row of the aligned feature frame: its date and one value per column. -/
abbrev FrameRow := DateT × List ℚ

/-- Column extraction `window[symbol_id]`, by column position (pivot column
labels are distinct). -/
def frameColumn (w : List FrameRow) (j : Nat) : List (Option ℚ) :=
  w.map fun r => r.2.get? j

/-- In-memory `CandidateEdge` record. -/
structure CandidateEdge where
  src_symbol_id : Nat
  dst_symbol_id : Nat
  p_value : ℚ
  lag : Nat
deriving Repr, DecidableEq

/-- Body of the doubly nested pair loop: skip self-loops, run
`_evaluate_pair`, and keep the result only when `min_p_value <= p_threshold`.
The pair is given as (column position, column label) for source and target. -/
def pairCandidate (gt : GrangerTest) (w : List FrameRow) (max_lag : Int)
    (p_threshold : ℚ) (src dst : Nat × Nat) : Option CandidateEdge :=
  if src.2 = dst.2 then none
  else
    match evaluate_pair gt (frameColumn w src.1) (frameColumn w dst.1) max_lag with
    | none => none
    | some (min_p_value, best_lag) =>
      if min_p_value ≤ p_threshold then
        some ⟨src.2, dst.2, min_p_value, best_lag⟩
      else none

/-- The candidate edges of one window: both loops range over the frame's
columns. -/
def windowCandidates (gt : GrangerTest) (cols : List Nat) (w : List FrameRow)
    (max_lag : Int) (p_threshold : ℚ) : List CandidateEdge :=
  cols.enum.flatMap fun src =>
    cols.enum.filterMap fun dst => pairCandidate gt w max_lag p_threshold src dst

/-! ### The aligned feature frame (`_load_feature_frame`) -/

/-- Insert into a strictly ascending list of dates, keeping it sorted and
duplicate-free (the pivot table's index). -/
def insortInt (d : Int) : List Int → List Int
  | [] => [d]
  | x :: xs =>
    if d < x then d :: x :: xs
    else if d = x then x :: xs
    else x :: insortInt d xs

/-- Insert into a strictly ascending list of symbol ids, keeping it sorted
and duplicate-free (the pivot table's columns). -/
def insortNat (n : Nat) : List Nat → List Nat
  | [] => [n]
  | x :: xs =>
    if n < x then n :: x :: xs
    else if n = x then x :: xs
    else x :: insortNat n xs

/-- The record extraction loop of `_load_feature_frame`: filter the
`features_daily` query result, skip non-dict payloads, and skip values that
`_to_float` rejects. -/
def featureRecords (features : List FeatureRow) (symbol_ids : List Nat)
    (start_date end_date : DateT) (feature_set_version feature_key : String) :
    List (Nat × DateT × ℚ) :=
  (features.filter fun f =>
      symbol_ids.contains f.symbol_id
        && decide (start_date ≤ f.date) && decide (f.date ≤ end_date)
        && (f.feature_set_version == feature_set_version)).filterMap
    fun f =>
      match f.feature_values with
      | none => none
      | some kvs =>
        match kvs.lookup feature_key with
        | some (some v) => some (f.symbol_id, f.date, v)
        | _ => none

/-- The aligned feature frame: pivot columns (symbol ids, ascending) and
date-sorted rows carrying one value per column. -/
structure Frame where
  cols : List Nat
  rows : List FrameRow
deriving Repr, DecidableEq

/-- Pandas `DataFrame.empty`: true when either axis has length zero. -/
def Frame.isEmpty (fr : Frame) : Bool := fr.rows.isEmpty || fr.cols.isEmpty

/-- `pivot_table(index=date, columns=symbol_id, values=value,
aggfunc="first")` followed by `dropna(how="any")` and `sort_index()`. -/
def pivotFrame (records : List (Nat × DateT × ℚ)) : Frame :=
  match records with
  | [] => ⟨[], []⟩
  | _ =>
    let cols := records.foldl (fun acc r => insortNat r.1 acc) []
    let dates := records.foldl (fun acc r => insortInt r.2.1 acc) []
    let cell := fun (d : DateT) (s : Nat) =>
      (records.find? fun r => r.1 == s && r.2.1 == d).map fun r => r.2.2
    let keptRows := dates.filterMap fun d =>
      let vals := cols.map fun s => cell d s
      if vals.any Option.isNone then none else some ((d, vals.reduceOption) : FrameRow)
    ⟨cols, keptRows⟩

/-- The column restriction `feature_frame[[col for col in columns if col in
symbol_ids]]`. -/
def Frame.selectCols (fr : Frame) (symbol_ids : List Nat) : Frame :=
  let keep := fr.cols.enum.filter fun ic => symbol_ids.contains ic.2
  ⟨keep.map fun ic => ic.2,
   fr.rows.map fun r => (r.1, keep.filterMap fun ic => r.2.get? ic.1)⟩

/-! ### Window iteration (the `enumerate(date_index)` loop) -/

/-- The windows `run_granger` evaluates: one pass over the aligned rows in
index order, skipping end dates outside `[start, end]`, positions with fewer
than `window_size` preceding rows (inclusive), and slices shorter than
`window_size`; the window is `iloc[idx + 1 - window_size : idx + 1]`.  Each
emitted entry is the snapshot end date together with the window's rows. -/
def snapshotWindows (rows : List FrameRow) (start_date end_date : DateT)
    (window_size : Int) : List (DateT × List FrameRow) :=
  (List.range rows.length).filterMap fun idx =>
    match rows.get? idx with
    | none => none
    | some row =>
      if row.1 < start_date ∨ end_date < row.1 then none
      else if (idx : Int) + 1 < window_size then none
      else
        let w := (rows.drop (idx + 1 - window_size.toNat)).take window_size.toNat
        if (w.length : Int) < window_size then none
        else some (row.1, w)

/-! ### Reset (`_reset_scope`) -/

/-- The scope predicate of `_reset_scope`'s snapshot query: end date within
`[start, end]` (a NULL end date never matches), matching window size and
matching method. -/
def snapshotInScope (start_date end_date : DateT) (window_size : Int)
    (method : String) (s : Snapshot) : Bool :=
  match s.end_date with
  | none => false
  | some d =>
    decide (start_date ≤ d) && decide (d ≤ end_date)
      && (s.window_size == some window_size) && (s.method == method)

/-- `_reset_scope`: collect the ids of in-scope snapshots; if none, return;
otherwise delete the edges owned by those snapshots and then the snapshots
themselves. -/
def reset_scope (db : DB) (start_date end_date : DateT) (window_size : Int)
    (method : String) : DB :=
  let snapshot_ids :=
    (db.snapshots.filter (snapshotInScope start_date end_date window_size method)).map
      fun s => s.id
  if snapshot_ids.isEmpty then db
  else
    { db with
      edges := db.edges.filter fun e => !(snapshot_ids.contains e.snapshot_id),
      snapshots := db.snapshots.filter fun s => !(snapshot_ids.contains s.id) }

/-! ### Snapshot upsert and edge replacement -/

/-- The lookup predicate of the per-window snapshot query: matching end date,
window size and method. -/
def snapshotKeyMatches (d : DateT) (window_size : Int) (method : String)
    (s : Snapshot) : Bool :=
  (s.end_date == some d) && (s.window_size == some window_size)
    && (s.method == method)

/-- ORM in-place mutation of the first row matching a predicate (the object
returned by `.scalar` of the same query). -/
def updateFirst (p : α → Bool) (f : α → α) : List α → List α
  | [] => []
  | x :: xs => if p x then f x :: xs else x :: updateFirst p f xs

/-- Delete all edges owned by snapshot `sid`, then insert the freshly
computed candidate edges: `p_value` is quantised to six decimals and
`weight = Decimal("1.000000") - p_value`. -/
def persistEdges (db : DB) (sid : Nat) (candidates : List CandidateEdge) : DB :=
  { db with
    edges :=
      (db.edges.filter fun e => !(e.snapshot_id == sid)) ++
        candidates.map fun c =>
          { snapshot_id := sid
            source_symbol_id := c.src_symbol_id
            target_symbol_id := c.dst_symbol_id
            weight := 1 - round6 c.p_value
            p_value := round6 c.p_value
            lag := (c.lag : Int) } }

/-- One iteration of the window loop: compute the window's candidate edges,
upsert the snapshot keyed by (end date, window size, method), replace its
edge set, and record (snapshot id, edge count). -/
def processWindow (gt : GrangerTest) (max_lag : Int) (p_threshold : ℚ)
    (window_size : Int) (method : String) (jobId : Nat) (frameCols : List Nat)
    (st : DB × List (Nat × Nat)) (dw : DateT × List FrameRow) :
    DB × List (Nat × Nat) :=
  let db := st.1
  let d := dw.1
  let w := dw.2
  let candidate_edges := windowCandidates gt frameCols w max_lag p_threshold
  let window_start := ((w.head?).map fun r => r.1).getD d
  let window_end := ((w.getLast?).map fun r => r.1).getD d
  match db.snapshots.find? (snapshotKeyMatches d window_size method) with
  | none =>
    let sid := db.nextSnapshotId
    let snap : Snapshot :=
      { id := sid, as_of_date := d, end_date := some d,
        window_size := some window_size, job_id := some jobId,
        window_start := some window_start, window_end := some window_end,
        method := method, node_count := frameCols.length,
        edge_count := candidate_edges.length }
    let db := { db with snapshots := db.snapshots ++ [snap],
                        nextSnapshotId := sid + 1 }
    (persistEdges db sid candidate_edges,
     st.2 ++ [(sid, candidate_edges.length)])
  | some snap =>
    let upd := fun (s : Snapshot) =>
      { s with as_of_date := d, window_start := some window_start,
               window_end := some window_end, method := method,
               node_count := frameCols.length,
               edge_count := candidate_edges.length,
               job_id := some jobId }
    let snaps := updateFirst (snapshotKeyMatches d window_size method) upd
      db.snapshots
    let db := { db with snapshots := snaps }
    (persistEdges db snap.id candidate_edges,
     st.2 ++ [(snap.id, candidate_edges.length)])

/-! ### The run itself (`run_granger`) -/

/-- The parameters of one `run_granger` invocation. -/
structure RunParams where
  start_date : DateT
  end_date : DateT
  window_size : Int
  max_lag : Int
  p_threshold : ℚ
  method : String
  feature_set_version : String
  feature_key : String
  tickers : List String
  reset : Bool
deriving Repr, DecidableEq

/-- How one invocation terminates: a `ValueError` raised before any database
work, a `RuntimeError` raised after the failed job was committed, or normal
completion with the generated (snapshot id, edge count) pairs. -/
inductive RunOutcome
  | validationError (msg : String)
  | runtimeError (msg : String)
  | completed (edge_counts : List (Nat × Nat))
deriving Repr, DecidableEq

/-- The four fail-fast parameter checks at the top of `run_granger`. -/
def validateParams (p : RunParams) : Option String :=
  if p.end_date < p.start_date then some "end must be on or after start"
  else if p.window_size < 2 then some "window_size must be >= 2"
  else if p.max_lag < 1 then some "max_lag must be >= 1"
  else if 0 ≤ p.p_threshold ∧ p.p_threshold ≤ 1 then none
  else some "p_threshold must be in [0, 1]"

/-- The error message of the empty-frame failure branch. -/
def noFeaturesMsg (feature_set_version feature_key : String) : String :=
  "No features found for requested symbols/date range (feature_set_version="
    ++ feature_set_version ++ ", feature_key=" ++ feature_key ++ ")"

/-- Commit with the job in `failed` state carrying the reason.  (The job row
is flushed while `running`, but only a commit makes it visible, and every
commit happens after the terminal status is set.) -/
def commitFailed (db : DB) (jobId : Nat) (job_type msg : String) : DB :=
  { db with
    jobs := db.jobs ++
      [{ id := jobId, job_type := job_type, status := "failed",
         error_message := some msg }],
    nextJobId := jobId + 1 }

/-- The window loop of `run_granger`: fold `processWindow` over the windows
of the aligned frame, starting from the session state and an empty list of
generated (snapshot id, edge count) pairs. -/
def runWindows (gt : GrangerTest) (p : RunParams) (jobId : Nat) (fr : Frame)
    (db : DB) : DB × List (Nat × Nat) :=
  (snapshotWindows fr.rows p.start_date p.end_date p.window_size).foldl
    (processWindow gt p.max_lag p.p_threshold p.window_size p.method jobId
      fr.cols)
    (db, [])

/-- The tail of the job body, after the optional reset: resolve symbols,
load and restrict the aligned frame, process every window, and commit
exactly once in each terminal branch.  `db` is the session state after the
optional reset; `jobId` was allocated at job creation. -/
def run_granger_body (gt : GrangerTest) (p : RunParams) (jobId : Nat)
    (db : DB) : DB × RunOutcome :=
  let resolved := resolve_symbols db.symbols p.tickers
  if resolved.length < 2 then
    let msg := "At least 2 symbols are required after fallback resolution"
    (commitFailed db jobId p.method msg, .runtimeError msg)
  else
    let symbol_ids := resolved.map fun r => r.symbol.id
    let feature_frame := pivotFrame
      (featureRecords db.features symbol_ids p.start_date p.end_date
        p.feature_set_version p.feature_key)
    if feature_frame.isEmpty then
      let msg := noFeaturesMsg p.feature_set_version p.feature_key
      (commitFailed db jobId p.method msg, .runtimeError msg)
    else
      let feature_frame := feature_frame.selectCols symbol_ids
      if feature_frame.cols.length < 2 then
        let msg := "Not enough aligned symbol series after inner join"
        (commitFailed db jobId p.method msg, .runtimeError msg)
      else
        let st := runWindows gt p jobId feature_frame db
        ({ st.1 with
           jobs := st.1.jobs ++
             [{ id := jobId, job_type := p.method, status := "completed",
                error_message := none }],
           nextJobId := jobId + 1 },
         .completed st.2)

/-- The body of `run_granger` after parameter validation: allocate the job
id, optionally reset the scope, then run the tail. -/
def run_granger_job (gt : GrangerTest) (db0 : DB) (p : RunParams) :
    DB × RunOutcome :=
  let jobId := db0.nextJobId
  let db := if p.reset then
      reset_scope db0 p.start_date p.end_date p.window_size p.method
    else db0
  run_granger_body gt p jobId db

/-- `run_granger`: fail fast on parameter validation, otherwise run the job
body. -/
def run_granger (gt : GrangerTest) (db0 : DB) (p : RunParams) : DB × RunOutcome :=
  match validateParams p with
  | some msg => (db0, .validationError msg)
  | none => run_granger_job gt db0 p

/-- The identifying key of a snapshot: (end date, window size, method). -/
def snapKey (s : Snapshot) : Option DateT × Option Int × String :=
  (s.end_date, s.window_size, s.method)

/-- No two snapshots share the same (end date, window size, method). -/
def snapKeysUnique (l : List Snapshot) : Prop := (l.map snapKey).Nodup

/-- The per-edge contract of claim C3: weight is the 6-decimal complement of
the persisted p-value, the p-value is a probability, the lag is in
`[1, max_lag]`, and there is no self-loop. -/
def edgeOK (ml : Int) (e : Edge) : Prop :=
  e.weight = round6 (1 - e.p_value) ∧ 0 ≤ e.p_value ∧ e.p_value ≤ 1 ∧
    1 ≤ e.lag ∧ e.lag ≤ ml ∧ e.source_symbol_id ≠ e.target_symbol_id

/-- Database states reachable from the empty database by any sequence of
`run_granger` invocations (any parameters, any statsmodels behaviour). -/
inductive Reachable : DB → Prop
  | init : Reachable emptyDB
  | step (gt : GrangerTest) (p : RunParams) {db : DB} :
      Reachable db → Reachable (run_granger gt db p).1

/-- Modelled from the claim's wording (C2): the resolver the claim describes,
skipping candidates without any feature series. -/
def resolve_symbols_claimed (symbols : List Symbol) (features : List FeatureRow)
    (tickers : List String) : List ResolvedSymbol :=
  tickers.filterMap fun t =>
    pickCandidateClaimed symbols features t (t :: FALLBACK_TICKERS t)

/-! ### Concrete fixtures used by witnesses and counterexamples -/

/-- A statsmodels oracle that always succeeds with p-value 1/100 at every
lag. -/
def gtLow : GrangerTest := fun _ _ _ => some fun _ => 1 / 100

/-- A statsmodels oracle that always raises. -/
def gtFail : GrangerTest := fun _ _ _ => none

/-- Fixture: a feature row for one symbol, date and value under version
"v1", key "r". -/
def mkFeature (sid : Nat) (d : Int) (v : ℚ) : FeatureRow :=
  { symbol_id := sid, date := d, feature_set_version := "v1",
    feature_values := some [("r", some v)] }

/-- Fixture: two symbols with aligned daily features on dates 0..5. -/
def twoSymbolDB : DB :=
  { symbols := [⟨1, "A"⟩, ⟨2, "B"⟩],
    features := [mkFeature 1 0 1, mkFeature 2 0 2, mkFeature 1 1 2,
                 mkFeature 2 1 4, mkFeature 1 2 3, mkFeature 2 2 6,
                 mkFeature 1 3 4, mkFeature 2 3 8, mkFeature 1 4 5,
                 mkFeature 2 4 10, mkFeature 1 5 6, mkFeature 2 5 12],
    jobs := [], snapshots := [], edges := [], nextJobId := 1,
    nextSnapshotId := 1 }

/-- Fixture: a well-formed parameter set (dates 0..5, window 3, max lag 2,
threshold 1 — an integer rational, so that concrete runs reduce in the
kernel). -/
def pOk : RunParams :=
  { start_date := 0, end_date := 5, window_size := 3, max_lag := 2,
    p_threshold := 1, method := "granger", feature_set_version := "v1",
    feature_key := "r", tickers := ["A", "B"], reset := false }

/-- Fixture: `pOk` with a malformed window size. -/
def pBadWindow : RunParams := { pOk with window_size := 1 }

/-- Fixture: a snapshot with a given id, end date, window size and method. -/
def mkSnap (i : Nat) (d : DateT) (ws : Int) (m : String) : Snapshot :=
  { id := i, as_of_date := d, end_date := some d, window_size := some ws,
    job_id := none, window_start := some (d - ws + 1), window_end := some d,
    method := m, node_count := 2, edge_count := 1 }

/-- Fixture: a database with one snapshot inside the scope (end date 3,
window 3, method "granger") and one outside it (window 4), each owning one
edge. -/
def resetDB : DB :=
  { symbols := [], features := [],
    jobs := [],
    snapshots := [mkSnap 1 3 3 "granger", mkSnap 2 3 4 "granger"],
    edges := [{ snapshot_id := 1, source_symbol_id := 1, target_symbol_id := 2,
                weight := 1 / 2, p_value := 1 / 2, lag := 1 },
              { snapshot_id := 2, source_symbol_id := 1, target_symbol_id := 2,
                weight := 1 / 2, p_value := 1 / 2, lag := 1 }],
    nextJobId := 1, nextSnapshotId := 3 }

/-- Fixture (C2): the `^TOPX` symbol row exists but has no feature rows,
while its fallback `1306.T` has data. -/
def cexSymbols : List Symbol := [⟨1, "^TOPX"⟩, ⟨2, "1306.T"⟩]

/-- Fixture (C2): the only feature series belongs to `1306.T` (symbol id
2). -/
def cexFeatures : List FeatureRow := [mkFeature 2 0 (1 / 100)]

/-- Fixture: a three-row, two-column window and its columns. -/
def w0 : List FrameRow := [(0, [1, 2]), (1, [2, 4]), (2, [3, 6])]

/-- Fixture: the column labels of `w0`. -/
def cols0 : List Nat := [1, 2]

/-- Fixture: a three-entry series with no missing values. -/
def series0 : List (Option ℚ) := [some 1, some 2, some 3]

/-- Fixture: `pOk` with `reset = true`. -/
def pReset : RunParams := { pOk with reset := true }

/-! ## Theorems -/

theorem pickCandidate_none_iff (symbols : List Symbol) (t : String)
    (cs : List String) :
    pickCandidate symbols t cs = none ↔ ∀ c ∈ cs, findSymbol symbols c = none := by
  induction cs with
  | nil => simp [pickCandidate]
  | cons c rest ih =>
    unfold pickCandidate
    cases hc : findSymbol symbols c with
    | none => simp [List.forall_mem_cons, hc, ih]
    | some s => simp [List.forall_mem_cons, hc]

theorem pickCandidate_some_iff (symbols : List Symbol) (t : String)
    (r : ResolvedSymbol) (cs : List String) :
    pickCandidate symbols t cs = some r ↔
      r.requested_ticker = t ∧ findSymbol symbols r.used_ticker = some r.symbol ∧
        ∃ pre post, cs = pre ++ r.used_ticker :: post ∧
          ∀ c ∈ pre, findSymbol symbols c = none := by
  induction cs with
  | nil =>
    constructor
    · intro h; exact absurd h (by simp [pickCandidate])
    · rintro ⟨-, -, pre, post, h, -⟩
      cases pre <;> simp at h
  | cons c rest ih =>
    unfold pickCandidate
    cases hc : findSymbol symbols c with
    | none =>
      rw [ih]
      constructor
      · rintro ⟨h1, h2, pre, post, h3, h4⟩
        refine ⟨h1, h2, c :: pre, post, by simp [h3], ?_⟩
        intro x hx
        rcases List.mem_cons.mp hx with h | h
        · rw [h]; exact hc
        · exact h4 x h
      · rintro ⟨h1, h2, pre, post, h3, h4⟩
        cases pre with
        | nil =>
          simp only [List.nil_append, List.cons.injEq] at h3
          rw [← h3.1, hc] at h2
          exact absurd h2 (by simp)
        | cons c' pre' =>
          simp only [List.cons_append, List.cons.injEq] at h3
          refine ⟨h1, h2, pre', post, h3.2, ?_⟩
          intro x hx
          exact h4 x (List.mem_cons_of_mem c' hx)
    | some s =>
      constructor
      · intro h
        obtain rfl : r = ⟨t, c, s⟩ := (Option.some.inj h).symm
        exact ⟨rfl, hc, [], rest, rfl, by simp⟩
      · rintro ⟨h1, h2, pre, post, h3, h4⟩
        cases pre with
        | nil =>
          simp only [List.nil_append, List.cons.injEq] at h3
          rw [← h3.1, hc] at h2
          have hs : s = r.symbol := Option.some.inj h2
          cases r with
          | mk rq ru rsym =>
            dsimp only at h1 hs h3
            rw [h1, h3.1, hs]
        | cons c' pre' =>
          simp only [List.cons_append, List.cons.injEq] at h3
          have hco := h4 c' (List.mem_cons_self c' pre')
          rw [← h3.1, hc] at hco
          exact absurd hco (by simp)

/-- Claim C2 (counterexample): the resolver picks a candidate as soon as its
ticker exists in the `symbols` table, even when that symbol has no feature
series at all; with the `^TOPX` symbol row present but dataless, the code
resolves `^TOPX` to itself although the first candidate with an available
feature series is the fallback `1306.T`. -/
theorem granger_resolver_availability_cex :
    resolve_symbols cexSymbols ["^TOPX"] ≠
        resolve_symbols_claimed cexSymbols cexFeatures ["^TOPX"]
      ∧ (resolve_symbols cexSymbols ["^TOPX"]).map (fun r => r.used_ticker) =
          ["^TOPX"]
      ∧ (resolve_symbols_claimed cexSymbols cexFeatures ["^TOPX"]).map
          (fun r => r.used_ticker) = ["1306.T"]
      ∧ hasFeatureSeries cexFeatures ⟨1, "^TOPX"⟩ = false := by
  refine ⟨?_, by decide, by decide, by decide⟩
  decide

/-- Claim C2 (amended): for every requested ticker the resolver tries the
requested identifier first and then each configured fallback in order, and
resolves to the first candidate identifier that exists in the symbols table,
regardless of feature-data availability; if no candidate exists as a symbol
the ticker is reported unresolved (dropped). -/
theorem granger_resolver_first_existing (symbols : List Symbol) (t : String)
    (r : ResolvedSymbol) :
    (pickCandidate symbols t (t :: FALLBACK_TICKERS t) = some r ↔
        r.requested_ticker = t ∧
          findSymbol symbols r.used_ticker = some r.symbol ∧
          ∃ pre post, t :: FALLBACK_TICKERS t = pre ++ r.used_ticker :: post ∧
            ∀ c ∈ pre, findSymbol symbols c = none)
      ∧ (pickCandidate symbols t (t :: FALLBACK_TICKERS t) = none ↔
          ∀ c ∈ t :: FALLBACK_TICKERS t, findSymbol symbols c = none)
      ∧ ∀ tickers, resolve_symbols symbols tickers =
          tickers.filterMap fun u => pickCandidate symbols u (u :: FALLBACK_TICKERS u) :=
  ⟨pickCandidate_some_iff symbols t r (t :: FALLBACK_TICKERS t),
   pickCandidate_none_iff symbols t (t :: FALLBACK_TICKERS t),
   fun _ => rfl⟩

/-- Claim C9: a malformed date range, `window_size < 2`, `max_lag < 1` or an
out-of-range `p_threshold` raises a validation error immediately: the
database (including the jobs table) is returned untouched and no job record
is created. -/
theorem granger_validation_fail_fast (gt : GrangerTest) (db : DB) (p : RunParams)
    (h : p.end_date < p.start_date ∨ p.window_size < 2 ∨ p.max_lag < 1 ∨
      ¬(0 ≤ p.p_threshold ∧ p.p_threshold ≤ 1)) :
    (run_granger gt db p).1 = db ∧
      ∃ msg, (run_granger gt db p).2 = RunOutcome.validationError msg := by
  have hv : validateParams p ≠ none := by
    unfold validateParams
    split_ifs with h1 h2 h3 h4
    · simp
    · simp
    · simp
    · rcases h with h | h | h | h
      · exact absurd h h1
      · exact absurd h h2
      · exact absurd h h3
      · exact absurd h4 h
    · simp
  obtain ⟨msg, hmsg⟩ := Option.ne_none_iff_exists'.mp hv
  unfold run_granger
  rw [hmsg]
  exact ⟨rfl, msg, rfl⟩

/-- Witness for C9: a run with `window_size = 1` leaves the database
unchanged. -/
theorem granger_validation_fail_fast_witness :
    (pBadWindow.end_date < pBadWindow.start_date ∨ pBadWindow.window_size < 2 ∨
        pBadWindow.max_lag < 1 ∨
        ¬(0 ≤ pBadWindow.p_threshold ∧ pBadWindow.p_threshold ≤ 1)) ∧
      ((run_granger gtLow twoSymbolDB pBadWindow).1 = twoSymbolDB ∧
        ∃ msg, (run_granger gtLow twoSymbolDB pBadWindow).2 =
          RunOutcome.validationError msg) :=
  ⟨Or.inr (Or.inl (by decide)),
   granger_validation_fail_fast gtLow twoSymbolDB pBadWindow
     (Or.inr (Or.inl (by decide)))⟩

theorem containsIffMem {α : Type} [BEq α] [LawfulBEq α] (l : List α) (a : α) :
    l.contains a = true ↔ a ∈ l := by
  rw [List.contains_iff_exists_mem_beq]
  constructor
  · rintro ⟨b, hb, hab⟩
    rw [eq_of_beq hab]
    exact hb
  · intro h
    exact ⟨a, h, by simp⟩

theorem reset_scope_spec (db : DB) (startD endD : DateT) (ws : Int) (m : String)
    (hid : (db.snapshots.map fun s => s.id).Nodup) :
    (reset_scope db startD endD ws m).snapshots =
        db.snapshots.filter (fun s => !(snapshotInScope startD endD ws m s))
      ∧ (∀ e, e ∈ (reset_scope db startD endD ws m).edges ↔
          e ∈ db.edges ∧ ∀ s ∈ db.snapshots,
            snapshotInScope startD endD ws m s = true → e.snapshot_id ≠ s.id)
      ∧ (reset_scope db startD endD ws m).symbols = db.symbols
      ∧ (reset_scope db startD endD ws m).features = db.features
      ∧ (reset_scope db startD endD ws m).jobs = db.jobs
      ∧ (reset_scope db startD endD ws m).nextJobId = db.nextJobId
      ∧ (reset_scope db startD endD ws m).nextSnapshotId = db.nextSnapshotId := by
  unfold reset_scope
  by_cases hemp :
      ((db.snapshots.filter (snapshotInScope startD endD ws m)).map
        fun s => s.id).isEmpty
  · rw [if_pos hemp]
    have hfilter : db.snapshots.filter (snapshotInScope startD endD ws m) = [] := by
      have h1 := List.isEmpty_iff.mp hemp
      exact List.map_eq_nil_iff.mp h1
    have hnone : ∀ s ∈ db.snapshots, snapshotInScope startD endD ws m s = false := by
      intro s hs
      have := List.filter_eq_nil_iff.mp hfilter s hs
      cases hb : snapshotInScope startD endD ws m s
      · rfl
      · exact absurd hb this
    refine ⟨?_, ?_, rfl, rfl, rfl, rfl, rfl⟩
    · refine (List.filter_eq_self.mpr ?_).symm
      intro s hs
      rw [hnone s hs]
      rfl
    · intro e
      constructor
      · intro he
        refine ⟨he, ?_⟩
        intro s hs hsc
        rw [hnone s hs] at hsc
        exact absurd hsc (by simp)
      · exact fun h => h.1
  · rw [if_neg hemp]
    refine ⟨?_, ?_, rfl, rfl, rfl, rfl, rfl⟩
    · apply List.filter_congr
      intro s hs
      cases hb : snapshotInScope startD endD ws m s with
      | true =>
        have hmem : s.id ∈ (db.snapshots.filter
            (snapshotInScope startD endD ws m)).map (fun s => s.id) :=
          List.mem_map.mpr ⟨s, List.mem_filter.mpr ⟨hs, hb⟩, rfl⟩
        have hc := (containsIffMem _ _).mpr hmem
        rw [hc]
      | false =>
        have hnm : s.id ∉ (db.snapshots.filter
            (snapshotInScope startD endD ws m)).map (fun s => s.id) := by
          intro hmem
          obtain ⟨s', hs', hid'⟩ := List.mem_map.mp hmem
          obtain ⟨hs'mem, hs'sc⟩ := List.mem_filter.mp hs'
          have heq : s' = s := List.inj_on_of_nodup_map hid hs'mem hs hid'
          rw [heq, hb] at hs'sc
          exact absurd hs'sc (by simp)
        cases hcb : ((db.snapshots.filter
            (snapshotInScope startD endD ws m)).map (fun s => s.id)).contains s.id with
        | false => rfl
        | true => exact absurd ((containsIffMem _ _).mp hcb) hnm
    · intro e
      rw [List.mem_filter]
      constructor
      · rintro ⟨he, hni⟩
        refine ⟨he, ?_⟩
        intro s hs hsc heq
        have hmem : e.snapshot_id ∈ (db.snapshots.filter
            (snapshotInScope startD endD ws m)).map (fun s => s.id) :=
          List.mem_map.mpr ⟨s, List.mem_filter.mpr ⟨hs, hsc⟩, heq.symm⟩
        have hc := (containsIffMem _ _).mpr hmem
        rw [hc] at hni
        exact absurd hni (by simp)
      · rintro ⟨he, hall⟩
        refine ⟨he, ?_⟩
        cases hcb : ((db.snapshots.filter
            (snapshotInScope startD endD ws m)).map (fun s => s.id)).contains
            e.snapshot_id with
        | false => rfl
        | true =>
          obtain ⟨s, hsf, hsid⟩ := List.mem_map.mp ((containsIffMem _ _).mp hcb)
          obtain ⟨hsmem, hssc⟩ := List.mem_filter.mp hsf
          exact absurd hsid.symm (hall s hsmem hssc)

/-- Claim C8: the reset performed by a `reset=true` run (before any window is
processed, see the `p.reset` branch of `run_granger`) deletes exactly the
snapshots whose end date lies in `[start, end]` with matching window size and
method, deletes exactly the edges owned by those snapshots, and touches
nothing else: out-of-scope snapshots survive unmodified, as do all other
tables. -/
theorem granger_reset_scope_exact (db : DB) (startD endD : DateT) (ws : Int)
    (m : String) (hid : (db.snapshots.map fun s => s.id).Nodup) :
    (reset_scope db startD endD ws m).snapshots =
        db.snapshots.filter (fun s => !(snapshotInScope startD endD ws m s))
      ∧ (∀ e, e ∈ (reset_scope db startD endD ws m).edges ↔
          e ∈ db.edges ∧ ∀ s ∈ db.snapshots,
            snapshotInScope startD endD ws m s = true → e.snapshot_id ≠ s.id)
      ∧ (reset_scope db startD endD ws m).symbols = db.symbols
      ∧ (reset_scope db startD endD ws m).features = db.features
      ∧ (reset_scope db startD endD ws m).jobs = db.jobs
      ∧ (reset_scope db startD endD ws m).nextJobId = db.nextJobId
      ∧ (reset_scope db startD endD ws m).nextSnapshotId = db.nextSnapshotId :=
  reset_scope_spec db startD endD ws m hid

/-- Witness for C8 on a concrete database holding one in-scope and one
out-of-scope snapshot, each with an edge. -/
theorem granger_reset_scope_exact_witness :
    ((resetDB.snapshots.map fun s => s.id).Nodup) ∧
      ((reset_scope resetDB 0 5 3 "granger").snapshots =
          resetDB.snapshots.filter (fun s => !(snapshotInScope 0 5 3 "granger" s))
        ∧ (∀ e, e ∈ (reset_scope resetDB 0 5 3 "granger").edges ↔
            e ∈ resetDB.edges ∧ ∀ s ∈ resetDB.snapshots,
              snapshotInScope 0 5 3 "granger" s = true → e.snapshot_id ≠ s.id)
        ∧ (reset_scope resetDB 0 5 3 "granger").symbols = resetDB.symbols
        ∧ (reset_scope resetDB 0 5 3 "granger").features = resetDB.features
        ∧ (reset_scope resetDB 0 5 3 "granger").jobs = resetDB.jobs
        ∧ (reset_scope resetDB 0 5 3 "granger").nextJobId = resetDB.nextJobId
        ∧ (reset_scope resetDB 0 5 3 "granger").nextSnapshotId =
            resetDB.nextSnapshotId) :=
  ⟨by decide, granger_reset_scope_exact resetDB 0 5 3 "granger" (by decide)⟩

theorem bestFoldSpec (f : Nat → ℚ) (lags : List Nat) (acc : ℚ × Nat) :
    ((lags.foldl (fun a lag => if f lag < a.1 then (f lag, lag) else a) acc) = acc
      ∨ ((lags.foldl (fun a lag => if f lag < a.1 then (f lag, lag) else a) acc).2 ∈ lags
          ∧ (lags.foldl (fun a lag => if f lag < a.1 then (f lag, lag) else a) acc).1
            = f (lags.foldl (fun a lag => if f lag < a.1 then (f lag, lag) else a) acc).2))
    ∧ (lags.foldl (fun a lag => if f lag < a.1 then (f lag, lag) else a) acc).1 ≤ acc.1 := by
  induction lags generalizing acc with
  | nil => exact ⟨Or.inl rfl, le_refl _⟩
  | cons lag rest ih =>
    rw [List.foldl_cons]
    by_cases h : f lag < acc.1
    · rw [if_pos h]
      rcases ih (f lag, lag) with ⟨h1, h2⟩
      refine ⟨?_, le_trans h2 (le_of_lt h)⟩
      rcases h1 with h1 | h1
      · right
        rw [h1]
        exact ⟨List.mem_cons_self _ _, rfl⟩
      · exact Or.inr ⟨List.mem_cons_of_mem _ h1.1, h1.2⟩
    · rw [if_neg h]
      rcases ih acc with ⟨h1, h2⟩
      refine ⟨?_, h2⟩
      rcases h1 with h1 | h1
      · exact Or.inl h1
      · exact Or.inr ⟨List.mem_cons_of_mem _ h1.1, h1.2⟩

theorem evaluate_pair_some_bounds (gt : GrangerTest) (src dst : List (Option ℚ))
    (ml : Int) (p : ℚ) (l : Nat)
    (h : evaluate_pair gt src dst ml = some (p, l)) :
    p ≤ 1 ∧ 1 ≤ l ∧ (l : Int) ≤ min ml ((src.length : Int) - 2)
      ∧ (GrangerNonneg gt → 0 ≤ p) := by
  simp only [evaluate_pair] at h
  split at h
  · exact absurd h (by simp)
  split at h
  · exact absurd h (by simp)
  split at h
  · exact absurd h (by simp)
  rename_i hlen heff hnan
  cases hgt : gt dst.reduceOption src.reduceOption
      (min ml ((src.length : Int) - 2)).toNat with
  | none =>
    rw [hgt] at h
    exact absurd h (by simp)
  | some pvals =>
    rw [hgt] at h
    dsimp only at h
    split at h
    · exact absurd h (by simp)
    rename_i hne
    obtain ⟨hbest, hle⟩ := bestFoldSpec pvals
      (List.range' 1 (min ml ((src.length : Int) - 2)).toNat) ((1 : ℚ), (0 : Nat))
    have hpl := Option.some.inj h
    have heff' : (0 : Int) ≤ min ml ((src.length : Int) - 2) := by omega
    rcases hbest with hacc | ⟨hmem, hval⟩
    · rw [hacc] at hne
      exact absurd rfl hne
    · rw [List.mem_range'_1] at hmem
      rw [hpl] at hle hmem hval
      dsimp only at hle hmem hval
      refine ⟨hle, hmem.1, by omega, ?_⟩
      intro hn
      rw [hval]
      exact hn _ _ _ _ hgt _

/-- Claim C4: for every ordered pair, lags are tested only through the single
statsmodels call at `effective_max_lag = min(max_lag, window_size - 2)`; when
that quantity is below 1 — equivalently, for validated `max_lag ≥ 1`, when
the window has fewer than 3 rows — the pair is skipped and no candidate can
arise regardless of the data or the oracle; any reported best lag lies in
`[1, effective_max_lag] ⊆ [1, max_lag]`; and the outcome depends on the
oracle only through its value at `maxlag = effective_max_lag`, and on the
returned p-values only at lags in `[1, effective_max_lag]`. -/
theorem granger_effective_max_lag (gt : GrangerTest) (src dst : List (Option ℚ))
    (ml : Int) (hml : 1 ≤ ml) :
    (min ml ((src.length : Int) - 2) < 1 ↔ (src.length : Int) < 3)
      ∧ ((src.length : Int) < 3 → evaluate_pair gt src dst ml = none)
      ∧ (∀ p l, evaluate_pair gt src dst ml = some (p, l) →
          1 ≤ l ∧ (l : Int) ≤ min ml ((src.length : Int) - 2) ∧ (l : Int) ≤ ml)
      ∧ (∀ gt' : GrangerTest,
          gt' dst.reduceOption src.reduceOption
              (min ml ((src.length : Int) - 2)).toNat
            = gt dst.reduceOption src.reduceOption
              (min ml ((src.length : Int) - 2)).toNat →
          evaluate_pair gt' src dst ml = evaluate_pair gt src dst ml)
      ∧ (∀ pvals pvals' : Nat → ℚ,
          gt dst.reduceOption src.reduceOption
              (min ml ((src.length : Int) - 2)).toNat = some pvals →
          (∀ l : Nat, 1 ≤ l → (l : Int) ≤ min ml ((src.length : Int) - 2) →
            pvals' l = pvals l) →
          evaluate_pair (fun _ _ _ => some pvals') src dst ml
            = evaluate_pair gt src dst ml) := by
  refine ⟨?_, ?_, ?_, ?_, ?_⟩
  · rw [min_lt_iff]
    constructor
    · rintro (h | h)
      · omega
      · omega
    · intro h
      exact Or.inr (by omega)
  · intro hlen
    simp only [evaluate_pair]
    split
    · rfl
    · rw [if_pos (min_lt_iff.mpr (Or.inr (by omega)))]
  · intro p l h
    obtain ⟨-, h1, h2, -⟩ := evaluate_pair_some_bounds gt src dst ml p l h
    exact ⟨h1, h2, le_trans h2 (min_le_left _ _)⟩
  · intro gt' hagree
    simp only [evaluate_pair, hagree]
  · intro pvals pvals' hgt hagree
    simp only [evaluate_pair, hgt]
    split
    · rfl
    split
    · rfl
    split
    · rfl
    rename_i hlen heff hnan
    have hfold : (List.range' 1 (min ml ((src.length : Int) - 2)).toNat).foldl
        (fun acc lag => if pvals' lag < acc.1 then (pvals' lag, lag) else acc)
        ((1 : ℚ), (0 : Nat))
        = (List.range' 1 (min ml ((src.length : Int) - 2)).toNat).foldl
        (fun acc lag => if pvals lag < acc.1 then (pvals lag, lag) else acc)
        ((1 : ℚ), (0 : Nat)) := by
      apply List.foldl_ext
      intro a lag hlag
      rw [List.mem_range'_1] at hlag
      rw [hagree lag hlag.1 (by omega)]
    rw [hfold]

/-- Witness for C4 at a three-row pair of series with `max_lag = 2` (so the
effective max lag is 1). -/
theorem granger_effective_max_lag_witness :
    (1 : Int) ≤ 2 ∧
      ((min 2 ((series0.length : Int) - 2) < 1 ↔ (series0.length : Int) < 3)
        ∧ ((series0.length : Int) < 3 → evaluate_pair gtLow series0 series0 2 = none)
        ∧ (∀ p l, evaluate_pair gtLow series0 series0 2 = some (p, l) →
            1 ≤ l ∧ (l : Int) ≤ min 2 ((series0.length : Int) - 2) ∧ (l : Int) ≤ 2)
        ∧ (∀ gt' : GrangerTest,
            gt' series0.reduceOption series0.reduceOption
                (min 2 ((series0.length : Int) - 2)).toNat
              = gtLow series0.reduceOption series0.reduceOption
                (min 2 ((series0.length : Int) - 2)).toNat →
            evaluate_pair gt' series0 series0 2 = evaluate_pair gtLow series0 series0 2)
        ∧ (∀ pvals pvals' : Nat → ℚ,
            gtLow series0.reduceOption series0.reduceOption
                (min 2 ((series0.length : Int) - 2)).toNat = some pvals →
            (∀ l : Nat, 1 ≤ l → (l : Int) ≤ min 2 ((series0.length : Int) - 2) →
              pvals' l = pvals l) →
            evaluate_pair (fun _ _ _ => some pvals') series0 series0 2
              = evaluate_pair gtLow series0 series0 2)) :=
  ⟨by norm_num, granger_effective_max_lag gtLow series0 series0 2 (by norm_num)⟩

/-- Claim C5: a window is evaluated iff its 0-indexed end position `i`
satisfies `i + 1 ≥ window_size` and its end date lies in `[start, end]`; the
window is exactly the `window_size` consecutive aligned rows at positions
`[i + 1 - window_size, i]`; and every evaluated window has exactly
`window_size` rows, so a window with fewer aligned rows is never evaluated. -/
theorem granger_window_iteration (rows : List FrameRow) (startD endD : DateT)
    (ws : Int) (hws : 2 ≤ ws) :
    (∀ dw, dw ∈ snapshotWindows rows startD endD ws ↔
        ∃ idx row, rows.get? idx = some row ∧ startD ≤ row.1 ∧ row.1 ≤ endD ∧
          ws ≤ (idx : Int) + 1 ∧
          dw = (row.1, (rows.drop (idx + 1 - ws.toNat)).take ws.toNat))
      ∧ ∀ dw ∈ snapshotWindows rows startD endD ws, dw.2.length = ws.toNat := by
  have hslice : ∀ idx, idx < rows.length → ws ≤ (idx : Int) + 1 →
      ((rows.drop (idx + 1 - ws.toNat)).take ws.toNat).length = ws.toNat := by
    intro idx hidx hwle
    rw [List.length_take, List.length_drop]
    omega
  have hmain : ∀ dw, dw ∈ snapshotWindows rows startD endD ws ↔
      ∃ idx row, rows.get? idx = some row ∧ startD ≤ row.1 ∧ row.1 ≤ endD ∧
        ws ≤ (idx : Int) + 1 ∧
        dw = (row.1, (rows.drop (idx + 1 - ws.toNat)).take ws.toNat) := by
    intro dw
    unfold snapshotWindows
    rw [List.mem_filterMap]
    constructor
    · rintro ⟨idx, hidx, hf⟩
      rw [List.mem_range] at hidx
      cases hrow : rows.get? idx with
      | none =>
        rw [hrow] at hf
        exact absurd hf (by simp)
      | some row =>
        rw [hrow] at hf
        simp only at hf
        split at hf
        · exact absurd hf (by simp)
        split at hf
        · exact absurd hf (by simp)
        split at hf
        · exact absurd hf (by simp)
        rename_i hrange hpos hlen
        push_neg at hrange
        exact ⟨idx, row, hrow, hrange.1, hrange.2, by omega,
          (Option.some.inj hf).symm⟩
    · rintro ⟨idx, row, hrow, h1, h2, h3, rfl⟩
      obtain ⟨hlt, -⟩ := List.get?_eq_some.mp hrow
      refine ⟨idx, List.mem_range.mpr hlt, ?_⟩
      rw [hrow]
      simp only
      rw [if_neg (by
          rintro (hc | hc)
          · exact absurd hc (not_lt.mpr h1)
          · exact absurd hc (not_lt.mpr h2)), if_neg (by omega),
        if_neg (by rw [hslice idx hlt h3]; omega)]
  refine ⟨hmain, ?_⟩
  intro dw hdw
  obtain ⟨idx, row, hrow, -, -, h3, hdw'⟩ := (hmain dw).mp hdw
  obtain ⟨hlt, -⟩ := List.get?_eq_some.mp hrow
  rw [hdw']
  exact hslice idx hlt h3

/-- Witness for C5 on a five-row frame with window size 3. -/
theorem granger_window_iteration_witness :
    (2 : Int) ≤ 3 ∧
      ((∀ dw, dw ∈ snapshotWindows [(0, [1]), (1, [2]), (2, [3]), (3, [4]), (4, [5])] 0 4 3 ↔
          ∃ idx row,
            List.get? [((0 : DateT), [(1 : ℚ)]), (1, [2]), (2, [3]), (3, [4]), (4, [5])] idx
              = some row ∧ 0 ≤ row.1 ∧ row.1 ≤ 4 ∧ (3 : Int) ≤ (idx : Int) + 1 ∧
            dw = (row.1,
              (List.drop (idx + 1 - (3 : Int).toNat)
                [((0 : DateT), [(1 : ℚ)]), (1, [2]), (2, [3]), (3, [4]), (4, [5])]).take
                (3 : Int).toNat))
        ∧ ∀ dw ∈ snapshotWindows [(0, [1]), (1, [2]), (2, [3]), (3, [4]), (4, [5])] 0 4 3,
            dw.2.length = (3 : Int).toNat) :=
  ⟨by norm_num,
   granger_window_iteration [(0, [1]), (1, [2]), (2, [3]), (3, [4]), (4, [5])] 0 4 3
     (by norm_num)⟩

theorem flatMapPairs (l1 : List α) (l2 : List β) (g : α → β → Option γ) :
    (l1.flatMap fun a => l2.filterMap (g a)) =
      (l1.flatMap fun a => l2.map fun b => (a, b)).filterMap fun pr => g pr.1 pr.2 := by
  induction l1 with
  | nil => simp
  | cons a rest ih =>
    simp only [List.flatMap_cons, List.filterMap_append, ih]
    congr 1
    rw [List.filterMap_map]
    rfl

theorem evaluate_pair_congr (gt gt' : GrangerTest) (src dst : List (Option ℚ))
    (ml : Int)
    (hagree : ∀ n, gt' dst.reduceOption src.reduceOption n
      = gt dst.reduceOption src.reduceOption n) :
    evaluate_pair gt' src dst ml = evaluate_pair gt src dst ml := by
  simp only [evaluate_pair, hagree]

/-- Claim C6: the candidate-edge computation of a window is a pairwise
independent pass: it equals a `filterMap` of the per-pair body over the full
list of ordered column pairs (so no pair's outcome can abort or skip the
remaining pairs); a pair whose causality test fails (the statsmodels call
raises, modelled by the oracle returning `none`, or any other `None` outcome
of `_evaluate_pair`) contributes no candidate edge; and each pair's outcome
depends on the oracle only through that pair's own two series, so a failure
injected for one pair leaves every other pair's result unchanged. -/
theorem granger_pair_isolation (gt : GrangerTest) (cols : List Nat)
    (w : List FrameRow) (ml : Int) (thr : ℚ) :
    (windowCandidates gt cols w ml thr =
        (cols.enum.flatMap fun a => cols.enum.map fun b => (a, b)).filterMap
          fun pr => pairCandidate gt w ml thr pr.1 pr.2)
      ∧ (∀ src dst : Nat × Nat,
          evaluate_pair gt (frameColumn w src.1) (frameColumn w dst.1) ml = none →
          pairCandidate gt w ml thr src dst = none)
      ∧ (∀ (gt' : GrangerTest) (src dst : Nat × Nat),
          (∀ n, gt' (frameColumn w dst.1).reduceOption
              (frameColumn w src.1).reduceOption n
            = gt (frameColumn w dst.1).reduceOption
              (frameColumn w src.1).reduceOption n) →
          pairCandidate gt' w ml thr src dst = pairCandidate gt w ml thr src dst) := by
  refine ⟨flatMapPairs cols.enum cols.enum _, ?_, ?_⟩
  · intro src dst hnone
    unfold pairCandidate
    rw [hnone]
    split
    · rfl
    · rfl
  · intro gt' src dst hagree
    unfold pairCandidate
    rw [evaluate_pair_congr gt gt' (frameColumn w src.1) (frameColumn w dst.1) ml hagree]

/-- Witness for C6: with an always-raising oracle the (0,1)-(1,2) pair of the
fixture window contributes no candidate edge. -/
theorem granger_pair_isolation_witness :
    (evaluate_pair gtFail (frameColumn w0 0) (frameColumn w0 1) 2 = none ∧
        pairCandidate gtFail w0 2 (1 / 20) (0, 1) (1, 2) = none)
      ∧ (∀ n, gtLow (frameColumn w0 1).reduceOption (frameColumn w0 0).reduceOption n
            = gtLow (frameColumn w0 1).reduceOption (frameColumn w0 0).reduceOption n) ∧
        pairCandidate gtLow w0 2 (1 / 20) (0, 1) (1, 2)
          = pairCandidate gtLow w0 2 (1 / 20) (0, 1) (1, 2) :=
  ⟨⟨by decide,
    (granger_pair_isolation gtFail cols0 w0 2 (1 / 20)).2.1 (0, 1) (1, 2) (by decide)⟩,
   fun _ => rfl,
   (granger_pair_isolation gtLow cols0 w0 2 (1 / 20)).2.2 gtLow (0, 1) (1, 2)
     fun _ => rfl⟩

theorem updateFirst_map_eq {α β : Type _} (p : α → Bool) (f : α → α) (k : α → β)
    (hk : ∀ x, p x = true → k (f x) = k x) :
    ∀ l : List α, (updateFirst p f l).map k = l.map k := by
  intro l
  induction l with
  | nil => rfl
  | cons x xs ih =>
    unfold updateFirst
    by_cases hx : p x
    · rw [if_pos hx]
      simp only [List.map_cons]
      rw [hk x hx]
    · rw [if_neg hx]
      simp only [List.map_cons, ih]

theorem snapshotKeyMatches_eq (d : DateT) (ws : Int) (m : String) (s : Snapshot)
    (h : snapshotKeyMatches d ws m s = true) :
    s.end_date = some d ∧ s.window_size = some ws ∧ s.method = m := by
  unfold snapshotKeyMatches at h
  simp only [Bool.and_eq_true, beq_iff_eq] at h
  exact ⟨h.1.1, h.1.2, h.2⟩

theorem reset_scope_fields (db : DB) (startD endD : DateT) (ws : Int) (m : String) :
    (reset_scope db startD endD ws m).jobs = db.jobs
      ∧ (reset_scope db startD endD ws m).symbols = db.symbols
      ∧ (reset_scope db startD endD ws m).features = db.features
      ∧ (reset_scope db startD endD ws m).nextJobId = db.nextJobId
      ∧ (∀ e ∈ (reset_scope db startD endD ws m).edges, e ∈ db.edges)
      ∧ List.Sublist (reset_scope db startD endD ws m).snapshots db.snapshots := by
  simp only [reset_scope]
  split
  · exact ⟨rfl, rfl, rfl, rfl, fun e he => he, List.Sublist.refl _⟩
  · exact ⟨rfl, rfl, rfl, rfl, fun e he => (List.mem_filter.mp he).1,
      List.filter_sublist _⟩

theorem processWindow_snapshots_keys (gt : GrangerTest) (ml : Int) (thr : ℚ)
    (ws : Int) (m : String) (jid : Nat) (fc : List Nat)
    (st : DB × List (Nat × Nat)) (dw : DateT × List FrameRow)
    (h : snapKeysUnique st.1.snapshots) :
    snapKeysUnique (processWindow gt ml thr ws m jid fc st dw).1.snapshots := by
  simp only [processWindow]
  split
  · rename_i hfind
    unfold snapKeysUnique at h ⊢
    show (List.map snapKey (st.1.snapshots ++ [_])).Nodup
    rw [List.map_append, List.nodup_append]
    refine ⟨h, List.nodup_singleton _, ?_⟩
    intro a ha hb
    simp only [List.map_cons, List.map_nil, List.mem_singleton] at hb
    obtain ⟨x, hx, hxa⟩ := List.mem_map.mp ha
    have hnm := List.find?_eq_none.mp hfind x hx
    apply hnm
    rw [hb] at hxa
    simp only [snapKey, Prod.mk.injEq] at hxa
    unfold snapshotKeyMatches
    simp only [Bool.and_eq_true, beq_iff_eq]
    exact ⟨⟨hxa.1, hxa.2.1⟩, hxa.2.2⟩
  · rename_i snap hfind
    unfold snapKeysUnique at h ⊢
    show (List.map snapKey (updateFirst _ _ st.1.snapshots)).Nodup
    rw [updateFirst_map_eq _ _ _ ?hk st.1.snapshots]
    · exact h
    case hk =>
      intro x hx
      obtain ⟨-, -, h3⟩ := snapshotKeyMatches_eq _ _ _ _ hx
      simp only [snapKey, h3]

theorem foldlWindows_keys (gt : GrangerTest) (ml : Int) (thr : ℚ) (ws : Int)
    (m : String) (jid : Nat) (fc : List Nat) :
    ∀ (l : List (DateT × List FrameRow)) (st : DB × List (Nat × Nat)),
      snapKeysUnique st.1.snapshots →
      snapKeysUnique ((l.foldl (processWindow gt ml thr ws m jid fc) st).1.snapshots) := by
  intro l
  induction l with
  | nil => exact fun st h => h
  | cons dw rest ih =>
    intro st h
    rw [List.foldl_cons]
    exact ih _ (processWindow_snapshots_keys gt ml thr ws m jid fc st dw h)

theorem processWindow_jobs (gt : GrangerTest) (ml : Int) (thr : ℚ) (ws : Int)
    (m : String) (jid : Nat) (fc : List Nat) (st : DB × List (Nat × Nat))
    (dw : DateT × List FrameRow) :
    (processWindow gt ml thr ws m jid fc st dw).1.jobs = st.1.jobs := by
  simp only [processWindow]
  split
  · rfl
  · rfl

theorem foldlWindows_jobs (gt : GrangerTest) (ml : Int) (thr : ℚ) (ws : Int)
    (m : String) (jid : Nat) (fc : List Nat) :
    ∀ (l : List (DateT × List FrameRow)) (st : DB × List (Nat × Nat)),
      (l.foldl (processWindow gt ml thr ws m jid fc) st).1.jobs = st.1.jobs := by
  intro l
  induction l with
  | nil => exact fun st => rfl
  | cons dw rest ih =>
    intro st
    rw [List.foldl_cons]
    exact (ih _).trans (processWindow_jobs gt ml thr ws m jid fc st dw)

theorem persistEdges_mem (db : DB) (sid : Nat) (cands : List CandidateEdge)
    (e : Edge) (he : e ∈ (persistEdges db sid cands).edges) :
    e ∈ db.edges ∨ ∃ c ∈ cands, e =
      { snapshot_id := sid, source_symbol_id := c.src_symbol_id,
        target_symbol_id := c.dst_symbol_id, weight := 1 - round6 c.p_value,
        p_value := round6 c.p_value, lag := (c.lag : Int) } := by
  simp only [persistEdges] at he
  rcases List.mem_append.mp he with h | h
  · exact Or.inl (List.mem_filter.mp h).1
  · obtain ⟨c, hc, hce⟩ := List.mem_map.mp h
    exact Or.inr ⟨c, hc, hce.symm⟩

theorem windowCandidates_mem (gt : GrangerTest) (cols : List Nat)
    (w : List FrameRow) (ml : Int) (thr : ℚ) (c : CandidateEdge)
    (hgt : GrangerNonneg gt) (hc : c ∈ windowCandidates gt cols w ml thr) :
    0 ≤ c.p_value ∧ c.p_value ≤ 1 ∧ 1 ≤ c.lag ∧ (c.lag : Int) ≤ ml ∧
      c.src_symbol_id ≠ c.dst_symbol_id := by
  unfold windowCandidates at hc
  obtain ⟨src, hsrc, hc2⟩ := List.mem_flatMap.mp hc
  obtain ⟨dst, hdst, hpc⟩ := List.mem_filterMap.mp hc2
  unfold pairCandidate at hpc
  split at hpc
  · exact absurd hpc (by simp)
  rename_i hne
  cases hev : evaluate_pair gt (frameColumn w src.1) (frameColumn w dst.1) ml with
  | none =>
    rw [hev] at hpc
    exact absurd hpc (by simp)
  | some r =>
    rw [hev] at hpc
    obtain ⟨mp, bl⟩ := r
    dsimp only at hpc
    split at hpc
    · rename_i hthr
      obtain ⟨hle1, hge1, hlem, hnn⟩ :=
        evaluate_pair_some_bounds gt _ _ ml mp bl hev
      have hcc := Option.some.inj hpc
      rw [← hcc]
      exact ⟨hnn hgt, hle1, hge1, le_trans hlem (min_le_left _ _), hne⟩
    · exact absurd hpc (by simp)

theorem processWindow_edges (gt : GrangerTest) (ml : Int) (thr : ℚ) (ws : Int)
    (m : String) (jid : Nat) (fc : List Nat) (st : DB × List (Nat × Nat))
    (dw : DateT × List FrameRow) (hgt : GrangerNonneg gt) (e : Edge)
    (he : e ∈ (processWindow gt ml thr ws m jid fc st dw).1.edges) :
    e ∈ st.1.edges ∨ edgeOK ml e := by
  have hper : ∀ (db2 : DB) (sid : Nat), db2.edges = st.1.edges →
      e ∈ (persistEdges db2 sid (windowCandidates gt fc dw.2 ml thr)).edges →
      e ∈ st.1.edges ∨ edgeOK ml e := by
    intro db2 sid hdb2 hee
    rcases persistEdges_mem db2 sid _ e hee with h | ⟨c, hc, hce⟩
    · rw [hdb2] at h
      exact Or.inl h
    · right
      obtain ⟨h0, h1, h2, h3, h4⟩ := windowCandidates_mem gt fc dw.2 ml thr c hgt hc
      rw [hce]
      refine ⟨(round6_one_sub_round6 c.p_value).symm, round6_nonneg h0,
        round6_le_one h1, ?_, h3, h4⟩
      show (1 : Int) ≤ (c.lag : Int)
      exact_mod_cast h2
  simp only [processWindow] at he
  split at he
  · exact hper _ _ rfl he
  · exact hper _ _ rfl he

theorem foldlWindows_edges (gt : GrangerTest) (ml : Int) (thr : ℚ) (ws : Int)
    (m : String) (jid : Nat) (fc : List Nat) (base : List Edge)
    (hgt : GrangerNonneg gt) :
    ∀ (l : List (DateT × List FrameRow)) (st : DB × List (Nat × Nat)),
      (∀ e ∈ st.1.edges, e ∈ base ∨ edgeOK ml e) →
      ∀ e ∈ (l.foldl (processWindow gt ml thr ws m jid fc) st).1.edges,
        e ∈ base ∨ edgeOK ml e := by
  intro l
  induction l with
  | nil => exact fun st h => h
  | cons dw rest ih =>
    intro st h
    rw [List.foldl_cons]
    apply ih
    intro e he
    rcases processWindow_edges gt ml thr ws m jid fc st dw hgt e he with h1 | h1
    · exact h e h1
    · exact Or.inr h1

theorem run_granger_body_keys (gt : GrangerTest) (p : RunParams) (jid : Nat)
    (dbR : DB) (h : snapKeysUnique dbR.snapshots) :
    snapKeysUnique (run_granger_body gt p jid dbR).1.snapshots := by
  simp only [run_granger_body, runWindows]
  split
  · exact h
  split
  · exact h
  split
  · exact h
  exact foldlWindows_keys gt p.max_lag p.p_threshold p.window_size p.method
    jid _ _ _ h

theorem run_granger_body_jobs (gt : GrangerTest) (p : RunParams) (jid : Nat)
    (dbR : DB) :
    (∀ j ∈ (run_granger_body gt p jid dbR).1.jobs,
        j ∈ dbR.jobs ∨ j.status = "failed" ∨ j.status = "completed")
      ∧ (∀ msg,
          (run_granger_body gt p jid dbR).2 = RunOutcome.runtimeError msg →
          ∃ j ∈ (run_granger_body gt p jid dbR).1.jobs,
            j.status = "failed" ∧ j.error_message = some msg) := by
  simp only [run_granger_body, runWindows, commitFailed]
  split
  · constructor
    · intro j hj
      dsimp only at hj
      rcases List.mem_append.mp hj with h1 | h1
      · exact Or.inl h1
      · rw [List.mem_singleton] at h1
        exact Or.inr (Or.inl (by rw [h1]))
    · intro msg hmsg
      dsimp only at hmsg
      injection hmsg with hm
      subst hm
      exact ⟨_, List.mem_append_right _ (List.mem_singleton_self _), rfl, rfl⟩
  split
  · constructor
    · intro j hj
      dsimp only at hj
      rcases List.mem_append.mp hj with h1 | h1
      · exact Or.inl h1
      · rw [List.mem_singleton] at h1
        exact Or.inr (Or.inl (by rw [h1]))
    · intro msg hmsg
      dsimp only at hmsg
      injection hmsg with hm
      subst hm
      exact ⟨_, List.mem_append_right _ (List.mem_singleton_self _), rfl, rfl⟩
  split
  · constructor
    · intro j hj
      dsimp only at hj
      rcases List.mem_append.mp hj with h1 | h1
      · exact Or.inl h1
      · rw [List.mem_singleton] at h1
        exact Or.inr (Or.inl (by rw [h1]))
    · intro msg hmsg
      dsimp only at hmsg
      injection hmsg with hm
      subst hm
      exact ⟨_, List.mem_append_right _ (List.mem_singleton_self _), rfl, rfl⟩
  constructor
  · intro j hj
    dsimp only at hj
    rcases List.mem_append.mp hj with h1 | h1
    · rw [foldlWindows_jobs] at h1
      exact Or.inl h1
    · rw [List.mem_singleton] at h1
      exact Or.inr (Or.inr (by rw [h1]))
  · intro msg hmsg
    dsimp only at hmsg
    exact absurd hmsg (by simp)

theorem run_granger_body_edges (gt : GrangerTest) (p : RunParams) (jid : Nat)
    (dbR : DB) (hgt : GrangerNonneg gt) :
    ∀ e ∈ (run_granger_body gt p jid dbR).1.edges,
      e ∈ dbR.edges ∨ edgeOK p.max_lag e := by
  simp only [run_granger_body, runWindows]
  split
  · exact fun e he => Or.inl he
  split
  · exact fun e he => Or.inl he
  split
  · exact fun e he => Or.inl he
  intro e he
  refine foldlWindows_edges gt p.max_lag p.p_threshold p.window_size p.method
    jid _ dbR.edges hgt _ _ ?_ e he
  exact fun e2 he2 => Or.inl he2

theorem run_granger_body_failure (gt : GrangerTest) (p : RunParams) (jid : Nat)
    (dbR : DB) (msg : String)
    (hfail : (run_granger_body gt p jid dbR).2 = RunOutcome.runtimeError msg) :
    (run_granger_body gt p jid dbR).1.snapshots = dbR.snapshots
      ∧ (run_granger_body gt p jid dbR).1.edges = dbR.edges
      ∧ ∃ j ∈ (run_granger_body gt p jid dbR).1.jobs,
          j.status = "failed" ∧ j.error_message = some msg := by
  simp only [run_granger_body, runWindows, commitFailed] at hfail ⊢
  split at hfail
  · rename_i h1
    rw [if_pos h1]
    dsimp only at hfail
    injection hfail with hm
    subst hm
    exact ⟨rfl, rfl,
      ⟨_, List.mem_append_right _ (List.mem_singleton_self _), rfl, rfl⟩⟩
  rename_i h1
  split at hfail
  · rename_i h2
    rw [if_neg h1, if_pos h2]
    dsimp only at hfail
    injection hfail with hm
    subst hm
    exact ⟨rfl, rfl,
      ⟨_, List.mem_append_right _ (List.mem_singleton_self _), rfl, rfl⟩⟩
  rename_i h2
  split at hfail
  · rename_i h3
    rw [if_neg h1, if_neg h2, if_pos h3]
    dsimp only at hfail
    injection hfail with hm
    subst hm
    exact ⟨rfl, rfl,
      ⟨_, List.mem_append_right _ (List.mem_singleton_self _), rfl, rfl⟩⟩
  · dsimp only at hfail
    exact absurd hfail (by simp)

theorem run_granger_job_keys (gt : GrangerTest) (db : DB) (p : RunParams)
    (h : snapKeysUnique db.snapshots) :
    snapKeysUnique (run_granger_job gt db p).1.snapshots := by
  by_cases hres : p.reset = true
  · simp only [run_granger_job, if_pos hres]
    apply run_granger_body_keys
    have hsub := (reset_scope_fields db p.start_date p.end_date p.window_size
      p.method).2.2.2.2.2
    unfold snapKeysUnique at h ⊢
    exact h.sublist (hsub.map snapKey)
  · simp only [run_granger_job, if_neg hres]
    exact run_granger_body_keys gt p db.nextJobId db h

theorem run_granger_job_jobs (gt : GrangerTest) (db : DB) (p : RunParams) :
    (∀ j ∈ (run_granger_job gt db p).1.jobs,
        j ∈ db.jobs ∨ j.status = "failed" ∨ j.status = "completed")
      ∧ (∀ msg, (run_granger_job gt db p).2 = RunOutcome.runtimeError msg →
          ∃ j ∈ (run_granger_job gt db p).1.jobs,
            j.status = "failed" ∧ j.error_message = some msg) := by
  by_cases hres : p.reset = true
  · simp only [run_granger_job, if_pos hres]
    obtain ⟨h1, h2⟩ := run_granger_body_jobs gt p db.nextJobId
      (reset_scope db p.start_date p.end_date p.window_size p.method)
    refine ⟨?_, h2⟩
    intro j hj
    rcases h1 j hj with hh | hh
    · rw [(reset_scope_fields db p.start_date p.end_date p.window_size
        p.method).1] at hh
      exact Or.inl hh
    · exact Or.inr hh
  · simp only [run_granger_job, if_neg hres]
    exact run_granger_body_jobs gt p db.nextJobId db

theorem run_granger_job_edges (gt : GrangerTest) (db : DB) (p : RunParams)
    (hgt : GrangerNonneg gt) :
    ∀ e ∈ (run_granger_job gt db p).1.edges,
      e ∈ db.edges ∨ edgeOK p.max_lag e := by
  by_cases hres : p.reset = true
  · simp only [run_granger_job, if_pos hres]
    intro e he
    rcases run_granger_body_edges gt p db.nextJobId _ hgt e he with hh | hh
    · exact Or.inl ((reset_scope_fields db p.start_date p.end_date
        p.window_size p.method).2.2.2.2.1 e hh)
    · exact Or.inr hh
  · simp only [run_granger_job, if_neg hres]
    exact run_granger_body_edges gt p db.nextJobId db hgt

theorem run_granger_job_reset_failure (gt : GrangerTest) (db : DB)
    (p : RunParams) (msg : String)
    (hid : (db.snapshots.map fun s => s.id).Nodup)
    (hreset : p.reset = true)
    (hfail : (run_granger_job gt db p).2 = RunOutcome.runtimeError msg) :
    (run_granger_job gt db p).1.snapshots =
        db.snapshots.filter
          (fun s => !(snapshotInScope p.start_date p.end_date p.window_size
            p.method s))
      ∧ (∀ e, e ∈ (run_granger_job gt db p).1.edges ↔
          e ∈ db.edges ∧ ∀ s ∈ db.snapshots,
            snapshotInScope p.start_date p.end_date p.window_size p.method s
              = true → e.snapshot_id ≠ s.id)
      ∧ (∀ s ∈ db.snapshots,
          snapshotInScope p.start_date p.end_date p.window_size p.method s
            = true → s ∉ (run_granger_job gt db p).1.snapshots)
      ∧ ∃ j ∈ (run_granger_job gt db p).1.jobs,
          j.status = "failed" ∧ j.error_message = some msg := by
  obtain ⟨hsnap, hedge, -, -, -, -, -⟩ :=
    reset_scope_spec db p.start_date p.end_date p.window_size p.method hid
  simp only [run_granger_job, if_pos hreset] at hfail ⊢
  obtain ⟨hs, he, hj⟩ := run_granger_body_failure gt p db.nextJobId
    (reset_scope db p.start_date p.end_date p.window_size p.method) msg hfail
  refine ⟨?_, ?_, ?_, hj⟩
  · rw [hs]
    exact hsnap
  · intro e
    rw [he]
    exact hedge e
  · intro s hsm hsc hmem
    rw [hs, hsnap] at hmem
    have hb := (List.mem_filter.mp hmem).2
    rw [hsc] at hb
    exact absurd hb (by simp)

/-- Claim C1: in every database reachable from the empty one by any sequence
of `run_granger` invocations there is at most one snapshot per (end date,
window size, method), and more generally a single run — which per window
either updates the snapshot found by that key or inserts exactly one new
one — preserves key-uniqueness of the snapshots table from any
duplicate-free starting state. -/
theorem granger_snapshot_key_unique :
    (∀ db : DB, Reachable db → snapKeysUnique db.snapshots)
      ∧ ∀ (gt : GrangerTest) (db : DB) (p : RunParams),
          snapKeysUnique db.snapshots →
          snapKeysUnique (run_granger gt db p).1.snapshots := by
  have hstep : ∀ (gt : GrangerTest) (db : DB) (p : RunParams),
      snapKeysUnique db.snapshots →
      snapKeysUnique (run_granger gt db p).1.snapshots := by
    intro gt db p h
    unfold run_granger
    cases hv : validateParams p with
    | some msg => exact h
    | none => exact run_granger_job_keys gt db p h
  refine ⟨?_, hstep⟩
  intro db h
  induction h with
  | init => exact List.nodup_nil
  | step gt p hr ih => exact hstep gt _ p ih

/-- Witness for C1: a completed run over the two-symbol fixture database
(which generates four snapshots) keeps snapshot keys unique. -/
theorem granger_snapshot_key_unique_witness :
    snapKeysUnique (run_granger gtLow twoSymbolDB pOk).1.snapshots :=
  granger_snapshot_key_unique.2 gtLow twoSymbolDB pOk List.nodup_nil

/-- Claim C3: every edge persisted by a run (i.e. present afterwards and not
a pre-existing row) satisfies `weight = round6 (1 - p_value)`,
`p_value ∈ [0, 1]`, `lag ∈ [1, max_lag]` and has distinct source and target,
assuming the external statsmodels test honours its contract of returning
nonnegative p-values. -/
theorem granger_edge_fields (gt : GrangerTest) (db : DB) (p : RunParams)
    (hgt : GrangerNonneg gt) :
    ∀ e ∈ (run_granger gt db p).1.edges,
      e ∈ db.edges ∨
        (e.weight = round6 (1 - e.p_value) ∧ 0 ≤ e.p_value ∧ e.p_value ≤ 1 ∧
          1 ≤ e.lag ∧ e.lag ≤ p.max_lag ∧
          e.source_symbol_id ≠ e.target_symbol_id) := by
  unfold run_granger
  cases hv : validateParams p with
  | some msg => exact fun e he => Or.inl he
  | none => exact run_granger_job_edges gt db p hgt

/-- Witness for C3: the oracle `gtLow` meets the nonnegativity contract and
the conclusion holds for a concrete completed run (which persists eight
edges). -/
theorem granger_edge_fields_witness :
    GrangerNonneg gtLow ∧
      ∀ e ∈ (run_granger gtLow twoSymbolDB pOk).1.edges,
        e ∈ twoSymbolDB.edges ∨
          (e.weight = round6 (1 - e.p_value) ∧ 0 ≤ e.p_value ∧ e.p_value ≤ 1 ∧
            1 ≤ e.lag ∧ e.lag ≤ pOk.max_lag ∧
            e.source_symbol_id ≠ e.target_symbol_id) :=
  ⟨fun _ _ _ f h l => by
      injection h with hf
      rw [← hf]
      norm_num,
   granger_edge_fields gtLow twoSymbolDB pOk (fun _ _ _ f h l => by
      injection h with hf
      rw [← hf]
      norm_num)⟩

/-- Claim C7: every job row a run commits is terminal — no committed job is
ever left in `running` — and whenever a run raises a `RuntimeError` (fewer
than two resolvable instruments, an empty aligned frame, or fewer than two
aligned columns), the committed database holds a job in `failed` state whose
`error_message` is exactly the raised human-readable reason. -/
theorem granger_job_terminal (gt : GrangerTest) (db : DB) (p : RunParams) :
    (∀ j ∈ (run_granger gt db p).1.jobs,
        j ∈ db.jobs ∨ j.status = "failed" ∨ j.status = "completed")
      ∧ ∀ msg, (run_granger gt db p).2 = RunOutcome.runtimeError msg →
          ∃ j ∈ (run_granger gt db p).1.jobs,
            j.status = "failed" ∧ j.error_message = some msg := by
  unfold run_granger
  cases hv : validateParams p with
  | some msg =>
    exact ⟨fun j hj => Or.inl hj, fun msg2 hmsg => absurd hmsg (by simp)⟩
  | none => exact run_granger_job_jobs gt db p

/-- Witness for C7: on an empty database the run fails resolution and the
committed job is `failed` with the resolution reason. -/
theorem granger_job_terminal_witness :
    (run_granger gtLow emptyDB pOk).2 = RunOutcome.runtimeError
        "At least 2 symbols are required after fallback resolution"
      ∧ ∃ j ∈ (run_granger gtLow emptyDB pOk).1.jobs,
          j.status = "failed" ∧ j.error_message =
            some "At least 2 symbols are required after fallback resolution" :=
  ⟨by decide, (granger_job_terminal gtLow emptyDB pOk).2 _ (by decide)⟩

/-- Claim C10: when a `reset=true` run fails after job creation with a
resolution or data-availability error, the single commit that persists the
failed job also persists the reset deletions: the snapshots left are exactly
the out-of-scope ones, the edges of in-scope snapshots are gone, every
in-scope snapshot has been removed even though no new snapshot was written,
and a failed job with the raised reason is committed. -/
theorem granger_reset_persists_on_failure (gt : GrangerTest) (db : DB)
    (p : RunParams) (msg : String)
    (hid : (db.snapshots.map fun s => s.id).Nodup)
    (hreset : p.reset = true)
    (hfail : (run_granger gt db p).2 = RunOutcome.runtimeError msg) :
    (run_granger gt db p).1.snapshots =
        db.snapshots.filter
          (fun s => !(snapshotInScope p.start_date p.end_date p.window_size
            p.method s))
      ∧ (∀ e, e ∈ (run_granger gt db p).1.edges ↔
          e ∈ db.edges ∧ ∀ s ∈ db.snapshots,
            snapshotInScope p.start_date p.end_date p.window_size p.method s
              = true → e.snapshot_id ≠ s.id)
      ∧ (∀ s ∈ db.snapshots,
          snapshotInScope p.start_date p.end_date p.window_size p.method s
            = true → s ∉ (run_granger gt db p).1.snapshots)
      ∧ ∃ j ∈ (run_granger gt db p).1.jobs,
          j.status = "failed" ∧ j.error_message = some msg := by
  cases hv : validateParams p with
  | some m =>
    exfalso
    have hrun : run_granger gt db p = (db, RunOutcome.validationError m) := by
      unfold run_granger
      rw [hv]
    rw [hrun] at hfail
    exact absurd hfail (by simp)
  | none =>
    have hrun : run_granger gt db p = run_granger_job gt db p := by
      unfold run_granger
      rw [hv]
    rw [hrun] at hfail ⊢
    exact run_granger_job_reset_failure gt db p msg hid hreset hfail

/-- Witness for C10: a failing `reset=true` run over `resetDB` (no symbols,
so resolution fails) removes the in-scope snapshot and its edge while
committing the failed job. -/
theorem granger_reset_persists_on_failure_witness :
    ((resetDB.snapshots.map fun s => s.id).Nodup) ∧ pReset.reset = true ∧
      (run_granger gtLow resetDB pReset).2 = RunOutcome.runtimeError
        "At least 2 symbols are required after fallback resolution" ∧
      ((run_granger gtLow resetDB pReset).1.snapshots =
          resetDB.snapshots.filter
            (fun s => !(snapshotInScope pReset.start_date pReset.end_date
              pReset.window_size pReset.method s))
        ∧ (∀ e, e ∈ (run_granger gtLow resetDB pReset).1.edges ↔
            e ∈ resetDB.edges ∧ ∀ s ∈ resetDB.snapshots,
              snapshotInScope pReset.start_date pReset.end_date
                pReset.window_size pReset.method s = true →
                e.snapshot_id ≠ s.id)
        ∧ (∀ s ∈ resetDB.snapshots,
            snapshotInScope pReset.start_date pReset.end_date
              pReset.window_size pReset.method s = true →
              s ∉ (run_granger gtLow resetDB pReset).1.snapshots)
        ∧ ∃ j ∈ (run_granger gtLow resetDB pReset).1.jobs,
            j.status = "failed" ∧ j.error_message =
              some "At least 2 symbols are required after fallback resolution") :=
  ⟨by decide, rfl, by decide,
   granger_reset_persists_on_failure gtLow resetDB pReset _ (by decide) rfl
     (by decide)⟩

end FundLink
